import Mathlib

/-!
Shallow embedding of the Proximity Index Engine of `src/app.py`
(GPS_Proximity_test): geohash codec, agent store, geohash bucket index,
upsert protocol and the staged proximity query.

Conventions of the embedding:
* Python floats are modelled as exact numbers: coordinates (which flow
  through the geohash encoder's interval-halving comparisons) as `ℚ`,
  trigonometric distance computations as `ℝ`.
* Python dicts are modelled as functions into `Option`; the `defaultdict`
  used for `geo_index` gets explicit read primitives that mirror the
  difference between `d[k]` (inserting a default entry) and `d.get(k, ...)`
  (pure read).
* Python sets of ids are `Finset String`; iteration order of a set is
  unspecified in Python, so wherever the code iterates over a set the
  embedding iterates in sorted order (no claim depends on the order).
-/

namespace App

/-! ### Configuration constants (src/app.py lines 15-19) -/

def R_EARTH : ℝ := 6371000.0

def GEO_PREC : Nat := 8

def THRESH_M : ℝ := 10.0

def TIME_WINDOW : ℝ := 60.0

def RELAX_RATIO : ℝ := 1.2

/-! ### Geohash codec (src/app.py lines 63-153) -/

def BASE32 : List Char := "0123456789bcdefghjkmnpqrstuvwxyz".toList

/-- `encode_geohash`'s interval-subdivision loop, one entry per bit.
`even = true` means the next bit subdivides the longitude interval
(the Python loop's `even` flag). Returns the list of produced bits. -/
def geohashBits (lat lon : ℚ) : Nat → Bool → ℚ → ℚ → ℚ → ℚ → List Bool
  | 0, _, _, _, _, _ => []
  | n + 1, even, latLo, latHi, lonLo, lonHi =>
    if even then
      let mid := (lonLo + lonHi) / 2
      if lon > mid then
        true :: geohashBits lat lon n (!even) latLo latHi mid lonHi
      else
        false :: geohashBits lat lon n (!even) latLo latHi lonLo mid
    else
      let mid := (latLo + latHi) / 2
      if lat > mid then
        true :: geohashBits lat lon n (!even) mid latHi lonLo lonHi
      else
        false :: geohashBits lat lon n (!even) latLo mid lonLo lonHi

/-- Pack five bits into one base-32 character, exactly the `bits = [16,8,4,2,1]`
accumulation of the Python loop. -/
def charOfBits (b0 b1 b2 b3 b4 : Bool) : Char :=
  BASE32.getD ((cond b0 16 0) + (cond b1 8 0) + (cond b2 4 0) +
               (cond b3 2 0) + (cond b4 1 0)) '0'

def bitsToChars : List Bool → List Char
  | b0 :: b1 :: b2 :: b3 :: b4 :: rest => charOfBits b0 b1 b2 b3 b4 :: bitsToChars rest
  | _ => []

def encode_geohash (lat lon : ℚ) (precision : Nat := GEO_PREC) : String :=
  ⟨bitsToChars (geohashBits lat lon (5 * precision) true (-90) 90 (-180) 180)⟩

/-! ### Geohash neighbours (src/app.py lines 64-121) -/

inductive Direction : Type
  | right | left | top | bottom
deriving DecidableEq, Repr

/-- The `__NEIGHBORS[d]['even']` lookup strings. -/
def NEIGHBORS_even : Direction → List Char
  | .right  => "bc01fg45238967deuvhjyznpkmstqrwx".toList
  | .left   => "238967debc01fg45kmstqrwxuvhjyznp".toList
  | .top    => "p0r21436x8zb9dcf5h7kjnmqesgutwvy".toList
  | .bottom => "14365h7k9dcfesgujnmqp0r2twvyx8zb".toList

/-- The `__BORDERS[d]['even']` lookup strings. -/
def BORDERS_even : Direction → List Char
  | .right  => "bcfguvyz".toList
  | .left   => "0145hjnp".toList
  | .top    => "prxz".toList
  | .bottom => "028b".toList

/-- For odd-length codes the Python code swaps the direction whose table is
used (`right ↦ top`, `left ↦ bottom`, `top ↦ right`, `bottom ↦ left`). -/
def oddSwap : Direction → Direction
  | .right => .top
  | .left => .bottom
  | .top => .right
  | .bottom => .left

/-- `direction_map[direction]` as selected by the even/odd branch. -/
def directionTable (d : Direction) (even : Bool) : List Char :=
  if even then NEIGHBORS_even d else NEIGHBORS_even (oddSwap d)

/-- `border_map[direction]` as selected by the even/odd branch. -/
def borderTable (d : Direction) (even : Bool) : List Char :=
  if even then BORDERS_even d else BORDERS_even (oddSwap d)

/-- Python `str.find`: index of the first occurrence, `-1` when absent. -/
def pyFind (s : List Char) (c : Char) : Int :=
  match s.indexOf? c with
  | some i => (i : Int)
  | none => -1

/-- Python string indexing `s[i]` with negative indices counting from the
end. On this code's call sites the index is always in range, so the
out-of-range default is never hit. -/
def pyGet (s : List Char) (i : Int) : Char :=
  if i < 0 then s.getD (s.length - (-i).toNat) '?' else s.getD i.toNat '?'

/-- The substituted last character:
`__BASE32[direction_map[direction].find(__BASE32[idx])]` with
`idx = __BASE32.find(last)`. -/
def charStep (dir : Direction) (even : Bool) (last : Char) : Char :=
  pyGet BASE32 (pyFind (directionTable dir even) (pyGet BASE32 (pyFind BASE32 last)))

/-- `_neighbor`, recursing on the reversed code: the head of the input list
is the last character of the geohash. `len(hashcode) % 2 == 0` is the parity
of the full (remaining) code at each recursion level. -/
def neighborRev : List Char → Direction → List Char
  | [], _ => []
  | last :: parent, dir =>
    let even : Bool := (parent.length + 1) % 2 == 0
    let parent' :=
      if (borderTable dir even).contains last then neighborRev parent dir
      else parent
    charStep dir even last :: parent'

def _neighbor (hashcode : String) (direction : Direction) : String :=
  ⟨(neighborRev hashcode.toList.reverse direction).reverse⟩

/-- The inverse direction (for stating neighbour round-trip symmetry). -/
def oppDir : Direction → Direction
  | .right => .left
  | .left => .right
  | .top => .bottom
  | .bottom => .top

/-- `neighbors(gh)`: the 8 directional neighbour codes, as a set. -/
def neighborsSet (gh : String) : Finset String :=
  let n := _neighbor gh .top
  let s := _neighbor gh .bottom
  let e := _neighbor gh .right
  let w := _neighbor gh .left
  let ne := _neighbor n .right
  let nw := _neighbor n .left
  let se := _neighbor s .right
  let sw := _neighbor s .left
  {n, s, e, w, ne, nw, se, sw}

/-! ### Distance computations (src/app.py lines 51-57 and 159-179) -/

noncomputable def radians (x : ℝ) : ℝ := x * Real.pi / 180

open Classical in
/-- Python `math.atan2(y, x)`. In `haversine` it is only ever called with
`y = sqrt a ≥ 0` and `x = sqrt (1 - a) ≥ 0`, but we embed the full
quadrant-correct function. -/
noncomputable def atan2 (y x : ℝ) : ℝ :=
  if 0 < x then Real.arctan (y / x)
  else if x < 0 ∧ 0 ≤ y then Real.arctan (y / x) + Real.pi
  else if x < 0 then Real.arctan (y / x) - Real.pi
  else if 0 < y then Real.pi / 2
  else if y < 0 then -(Real.pi / 2)
  else 0

noncomputable def haversine (lat1 lon1 lat2 lon2 : ℝ) : ℝ :=
  let phi1 := radians lat1
  let phi2 := radians lat2
  let dphi := radians (lat2 - lat1)
  let dlambda := radians (lon2 - lon1)
  let a := Real.sin (dphi / 2) ^ 2 +
    Real.cos phi1 * Real.cos phi2 * Real.sin (dlambda / 2) ^ 2
  2 * R_EARTH * atan2 (Real.sqrt a) (Real.sqrt (1 - a))

noncomputable def equirectangular_m (lat1 lon1 lat2 lon2 : ℝ) : ℝ :=
  let x := radians (lon2 - lon1) * Real.cos (radians ((lat1 + lat2) / 2))
  let y := radians (lat2 - lat1)
  R_EARTH * Real.sqrt (x * x + y * y)

/-- `bbox_pass` returns a Python bool; embedded as the proposition it tests. -/
def bbox_pass (lat1 lon1 lat2 lon2 thresh_m : ℝ) : Prop :=
  let deg_per_m := 180.0 / Real.pi / R_EARTH
  let dlat_max := thresh_m * deg_per_m
  let dlon_max := dlat_max / max 0.2 (Real.cos (radians lat1))
  |lat1 - lat2| ≤ dlat_max ∧ |lon1 - lon2| ≤ dlon_max

/-- `near_with_stages`: the early-return chain
`if not bbox: False; if approx > t*relax: False; return haversine ≤ t`
is the conjunction of the three stage conditions. -/
def near_with_stages (lat1 lon1 lat2 lon2 : ℝ) (thresh_m : ℝ := THRESH_M)
    (relax_ratio : ℝ := RELAX_RATIO) : Prop :=
  bbox_pass lat1 lon1 lat2 lon2 thresh_m ∧
  equirectangular_m lat1 lon1 lat2 lon2 ≤ thresh_m * relax_ratio ∧
  haversine lat1 lon1 lat2 lon2 ≤ thresh_m

/-! ### Agent store and geohash index (src/app.py lines 27-45 and 185-231) -/

structure User where
  user_id : String
  location_histry : List (ℚ × ℚ) := []
  last_ts : ℝ := 0.0
  last_gh : Option String := none

/-- `collections.deque(maxlen=20)` append: evicts the oldest entry once the
capacity of 20 is reached. Most recent entry is last. -/
def dequeAppend20 (h : List (ℚ × ℚ)) (x : ℚ × ℚ) : List (ℚ × ℚ) :=
  if h.length < 20 then h ++ [x] else h.tail ++ [x]

/-- `User.add_location` (the `ts=None` default is always overridden at the
one call site in `upsert_user`, so the timestamp is a plain argument here). -/
def User.add_location (u : User) (lat lon : ℚ) (ts : ℝ) : User :=
  { u with location_histry := dequeAppend20 u.location_histry (lat, lon),
           last_ts := ts }

def User.latest_location (u : User) : Option (ℚ × ℚ) :=
  u.location_histry.getLast?

/-- `users`: a Python dict, modelled as a partial map. -/
abbrev Users := String → Option User

/-- `geo_index = defaultdict(set)`: `none` means the key is absent. -/
abbrev GeoIndex := String → Option (Finset String)

/-- The set of ids the index associates to a bucket (absent key reads as the
empty set; an absent key and an empty stored set are indistinguishable to
readers, but not to the map itself). -/
def idxSet (idx : GeoIndex) (g : String) : Finset String := (idx g).getD ∅

/-- `defaultdict.__getitem__`: inserts an empty-set entry when the key is
missing, and returns the (possibly fresh) entry together with the updated
map. -/
def dd_getitem (idx : GeoIndex) (k : String) : Finset String × GeoIndex :=
  match idx k with
  | some s => (s, idx)
  | none => (∅, fun g => if g = k then some ∅ else idx g)

/-- `dict.get(k, set())`: a pure read, never inserts. Returned with the
(unchanged) map to mirror the effect type of `dd_getitem`. -/
def dict_get (idx : GeoIndex) (k : String) : Finset String × GeoIndex :=
  ((idx k).getD ∅, idx)

/-- `geo_index[k].discard(x)` of `upsert_user`. -/
def discard_from (idx : GeoIndex) (k : String) (x : String) : GeoIndex :=
  let p := dd_getitem idx k
  fun g => if g = k then some (p.1.erase x) else p.2 g

/-- `geo_index[k].add(x)` of `upsert_user`. -/
def add_to (idx : GeoIndex) (k : String) (x : String) : GeoIndex :=
  let p := dd_getitem idx k
  fun g => if g = k then some (insert x p.1) else p.2 g

/-- `upsert_user(users_dict, user_id, lat, lon, ts=None)`. `now` stands for
the `time.time()` consulted when `ts` is `None`. -/
def upsert_user (users_dict : Users) (idx : GeoIndex) (user_id : String)
    (lat lon : ℚ) (ts? : Option ℝ) (now : ℝ) : Users × GeoIndex :=
  let u0 : User := match users_dict user_id with
    | some u => u
    | none => { user_id := user_id }
  let idx1 : GeoIndex := match u0.last_gh with
    | some g => discard_from idx g user_id
    | none => idx
  let u1 := u0.add_location lat lon (ts?.getD now)
  let gh := encode_geohash lat lon GEO_PREC
  let u2 : User := { u1 with last_gh := some gh }
  let idx2 := add_to idx1 gh user_id
  (fun uid => if uid = user_id then some u2 else users_dict uid, idx2)

/-- The `for h in cand_hashes: candidates |= geo_index.get(h, set())` loop,
threading the index through each read (`dict.get` never modifies it). -/
def collect_candidates : GeoIndex → List String → Finset String × GeoIndex
  | idx, [] => (∅, idx)
  | idx, h :: rest =>
    let p := dict_get idx h
    let q := collect_candidates p.2 rest
    (p.1 ∪ q.1, q.2)

open Classical in
/-- Body of the `for vid in candidates:` loop of `check_proximity_geohash`:
`none` when the candidate is skipped (self, unknown, no location, stale, or
rejected by the stage cascade), otherwise the produced hit. -/
noncomputable def hitOf (users_dict : Users) (user_id : String)
    (now threshold time_window : ℝ) (lat1 lon1 : ℚ) (vid : String) :
    Option (String × ℝ) :=
  if vid = user_id then none
  else match users_dict vid with
    | none => none
    | some v =>
      match v.latest_location with
      | none => none
      | some (lat2, lon2) =>
        if now - v.last_ts > time_window then none
        else if near_with_stages lat1 lon1 lat2 lon2 threshold RELAX_RATIO
        then some (vid, haversine lat1 lon1 lat2 lon2)
        else none

/-- `gh = u.last_gh or encode_geohash(lat1, lon1, GEO_PREC)` — Python `or`
falls through on `None` and on the (unreachable) empty string, both falsy. -/
def ghOf (u : User) (lat1 lon1 : ℚ) : String :=
  match u.last_gh with
  | some g => if g.isEmpty then encode_geohash lat1 lon1 GEO_PREC else g
  | none => encode_geohash lat1 lon1 GEO_PREC

/-- `check_proximity_geohash`. `now` stands for the `time.time()` taken at
entry. Python iterates its sets in unspecified order; the embedding iterates
in sorted order. The returned index is the index after all reads the query
performs. -/
noncomputable def check_proximity_geohash (users_dict : Users) (idx : GeoIndex)
    (user_id : String) (now : ℝ) (threshold : ℝ := THRESH_M)
    (time_window : ℝ := TIME_WINDOW) : List (String × ℝ) × GeoIndex :=
  match users_dict user_id with
  | none => ([], idx)
  | some u =>
    match u.latest_location with
    | none => ([], idx)
    | some (lat1, lon1) =>
      let gh : String := ghOf u lat1 lon1
      let cand_hashes : Finset String := insert gh (neighborsSet gh)
      let p := collect_candidates idx (cand_hashes.sort (· ≤ ·))
      let hits := (p.1.sort (· ≤ ·)).filterMap
        (hitOf users_dict user_id now threshold time_window lat1 lon1)
      (hits, p.2)

/-- Concrete two-agent state used by witnesses: both agents at the origin,
both indexed under `encode_geohash 0 0 8 = "7zzzzzzz"`, timestamps `0`. -/
def aliceUser : User :=
  { user_id := "alice", location_histry := [(0, 0)], last_ts := 0,
    last_gh := some "7zzzzzzz" }

def bobUser : User :=
  { user_id := "bob", location_histry := [(0, 0)], last_ts := 0,
    last_gh := some "7zzzzzzz" }

def usersAB : Users := fun uid =>
  if uid = "alice" then some aliceUser
  else if uid = "bob" then some bobUser
  else none

def idxAB : GeoIndex := fun g =>
  if g = "7zzzzzzz" then some {"alice", "bob"} else none

/-- Strengthened index invariant: an identifier occupies bucket `g` exactly
when the store knows it with `last_gh = some g`. It implies the spec's
relationship invariant (§3) and is preserved by `upsert_user`. -/
def Inv (users_dict : Users) (idx : GeoIndex) : Prop :=
  ∀ uid g, uid ∈ idxSet idx g ↔
    ∃ u, users_dict uid = some u ∧ u.last_gh = some g

/-- The state after one `upsert_user "alice" (0, 0)` from the empty initial
state (used by the C2 witness). -/
def stateA : Users × GeoIndex :=
  upsert_user (fun _ => none) (fun _ => none) "alice" 0 0 none 0

/-- The record `stateA` stores for "alice". -/
def aliceAfterUpsert : User :=
  { user_id := "alice", location_histry := [(0, 0)], last_ts := 0,
    last_gh := some (encode_geohash 0 0 GEO_PREC) }

/-- States of the shared `users`/`geo_index` pair reachable from the empty
initial state by `upsert_user` calls. -/
inductive Reachable : Users × GeoIndex → Prop
  | init : Reachable (fun _ => none, fun _ => none)
  | step (s : Users × GeoIndex) (uid : String) (lat lon : ℚ)
      (ts? : Option ℝ) (now : ℝ) :
      Reachable s → Reachable (upsert_user s.1 s.2 uid lat lon ts? now)

/-! ## Theorems -/

/-! ### Geohash encoding: determinism and length (C8) -/

theorem geohashBits_length (lat lon : ℚ) :
    ∀ (n : Nat) (e : Bool) (a b c d : ℚ),
      (geohashBits lat lon n e a b c d).length = n := by
  intro n
  induction n with
  | zero => intro e a b c d; rfl
  | succ n ih =>
    intro e a b c d
    simp only [geohashBits]
    split <;> split <;> simp [ih]

theorem bitsToChars_length :
    ∀ (p : Nat) (l : List Bool), l.length = 5 * p → (bitsToChars l).length = p := by
  intro p
  induction p with
  | zero =>
    intro l hl
    match l, hl with
    | [], _ => rfl
  | succ p ih =>
    intro l hl
    match l with
    | b0 :: b1 :: b2 :: b3 :: b4 :: rest =>
      simp only [List.length_cons] at hl
      have hrest : rest.length = 5 * p := by omega
      simp [bitsToChars, ih rest hrest]

/-- C8: `encode_geohash` is deterministic (same arguments, same code) and
the produced code's length equals the requested precision. -/
theorem C8_encode_deterministic_fixed_length (lat lon : ℚ) (p : Nat)
    (hp : 0 < p) :
    encode_geohash lat lon p = encode_geohash lat lon p ∧
    (encode_geohash lat lon p).length = p := by
  refine ⟨rfl, ?_⟩
  show (bitsToChars (geohashBits lat lon (5 * p) true (-90) 90 (-180) 180)).length = p
  exact bitsToChars_length p _ (geohashBits_length lat lon (5 * p) true _ _ _ _)

/-- Witness for C8 at the spec's example coordinates. -/
theorem C8_witness :
    0 < 8 ∧
    (encode_geohash (35681236 / 1000000) (139767125 / 1000000) 8 =
      encode_geohash (35681236 / 1000000) (139767125 / 1000000) 8 ∧
     (encode_geohash (35681236 / 1000000) (139767125 / 1000000) 8).length = 8) :=
  ⟨by norm_num,
   C8_encode_deterministic_fixed_length (35681236 / 1000000)
     (139767125 / 1000000) 8 (by norm_num)⟩

/-! ### Neighbour symmetry (C9) -/

theorem neighborRev_cons (a : Char) (l : List Char) (d : Direction) :
    neighborRev (a :: l) d =
      charStep d ((l.length + 1) % 2 == 0) a ::
      (if (borderTable d ((l.length + 1) % 2 == 0)).contains a
       then neighborRev l d else l) := rfl

/-- The per-character substitution stays inside the base-32 alphabet. -/
theorem charStep_mem (d : Direction) (e : Bool) :
    ∀ c ∈ BASE32, charStep d e c ∈ BASE32 := by
  cases d <;> cases e <;> decide

/-- The per-character substitutions of opposite directions are inverse. -/
theorem charStep_inv (d : Direction) (e : Bool) :
    ∀ c ∈ BASE32, charStep (oppDir d) e (charStep d e c) = c := by
  cases d <;> cases e <;> decide

/-- A substituted character sits on the opposite border exactly when the
original sits on the border of the original direction (so the two
border-carry recursions fire in lockstep). -/
theorem charStep_border (d : Direction) (e : Bool) :
    ∀ c ∈ BASE32,
      (borderTable (oppDir d) e).contains (charStep d e c) =
      (borderTable d e).contains c := by
  cases d <;> cases e <;> decide

theorem neighborRev_length (d : Direction) :
    ∀ l : List Char, (neighborRev l d).length = l.length := by
  intro l
  induction l with
  | nil => rfl
  | cons a l ih =>
    rw [neighborRev_cons]
    by_cases hb : (borderTable d ((l.length + 1) % 2 == 0)).contains a
    · rw [if_pos hb]; simp [ih]
    · rw [if_neg hb]; simp

theorem neighborRev_round (d : Direction) :
    ∀ l : List Char, (∀ c ∈ l, c ∈ BASE32) →
      neighborRev (neighborRev l d) (oppDir d) = l := by
  intro l
  induction l with
  | nil => intro _; rfl
  | cons a l ih =>
    intro hl
    have ha : a ∈ BASE32 := hl a (by simp)
    have hl' : ∀ c ∈ l, c ∈ BASE32 := fun c hc => hl c (by simp [hc])
    rw [neighborRev_cons]
    by_cases hb : (borderTable d ((l.length + 1) % 2 == 0)).contains a
    · rw [if_pos hb, neighborRev_cons, neighborRev_length,
        charStep_border d _ a ha, charStep_inv d _ a ha, if_pos hb, ih hl']
    · rw [if_neg hb, neighborRev_cons,
        charStep_border d _ a ha, charStep_inv d _ a ha, if_neg hb]

theorem neighbor_round (c : String) (d : Direction)
    (hc : ∀ ch ∈ c.data, ch ∈ BASE32) :
    _neighbor (_neighbor c d) (oppDir d) = c := by
  cases c with
  | mk l =>
    show String.mk _ = String.mk l
    simp only [_neighbor, String.toList]
    rw [List.reverse_reverse, neighborRev_round d l.reverse
      (by intro ch hch; exact hc ch (List.mem_reverse.mp hch)),
      List.reverse_reverse]

/-- C9: for every geohash code over the base-32 alphabet,
`neighbor (neighbor c right) left = c` and
`neighbor (neighbor c top) bottom = c`. (This holds for all such codes,
poles and antimeridian included: the implementation's border carry wraps
symmetrically, so the spec's carve-out for edge cases is not even needed.) -/
theorem C9_neighbor_symmetry (c : String)
    (hc : ∀ ch ∈ c.data, ch ∈ BASE32) :
    _neighbor (_neighbor c .right) .left = c ∧
    _neighbor (_neighbor c .top) .bottom = c :=
  ⟨neighbor_round c .right hc, neighbor_round c .top hc⟩

/-- Witness for C9 on the geohash of the spec's Tokyo example point. -/
theorem C9_witness :
    _neighbor (_neighbor "xn76urx6" .right) .left = "xn76urx6" ∧
    _neighbor (_neighbor "xn76urx6" .top) .bottom = "xn76urx6" :=
  C9_neighbor_symmetry "xn76urx6" (by decide)

/-! ### The proximity query: frame, error handling, filters (C10, C5, C6, C7, C4) -/

theorem collect_candidates_idx :
    ∀ (hs : List String) (idx : GeoIndex), (collect_candidates idx hs).2 = idx := by
  intro hs
  induction hs with
  | nil => intro idx; rfl
  | cons h rest ih => intro idx; simp [collect_candidates, dict_get, ih]

/-- C10: the proximity query is read-only on shared state: the index it
returns is the index it was given (in particular, reading a neighbour bucket
through `dict.get` never inserts an empty-set entry), and it takes the user
store purely as an input. -/
theorem C10_query_read_only (users_dict : Users) (idx : GeoIndex)
    (user_id : String) (now threshold time_window : ℝ) :
    (check_proximity_geohash users_dict idx user_id now
      threshold time_window).2 = idx := by
  unfold check_proximity_geohash
  obtain hu | ⟨u, hu⟩ := (users_dict user_id).eq_none_or_eq_some
  · rw [hu]
  · rw [hu]
    obtain hl | ⟨q, hl⟩ := u.latest_location.eq_none_or_eq_some
    · simp only [hl]
    · obtain ⟨lat1, lon1⟩ := q
      simp only [hl]
      simpa using collect_candidates_idx _ idx

/-- C5: querying an unknown agent, or one with no recorded location,
returns the empty hit list (no error). -/
theorem C5_unknown_agent_empty (users_dict : Users) (idx : GeoIndex)
    (user_id : String) (now threshold time_window : ℝ)
    (h : users_dict user_id = none ∨
      ∃ u, users_dict user_id = some u ∧ u.latest_location = none) :
    (check_proximity_geohash users_dict idx user_id now
      threshold time_window).1 = [] := by
  unfold check_proximity_geohash
  rcases h with h | ⟨u, hu, hl⟩
  · rw [h]
  · rw [hu]
    simp only [hl]

/-- Witness for C5: the never-upserted identifier "alice" on the empty
state. -/
theorem C5_witness :
    ((fun _ => none : Users) "alice" = none ∨
      ∃ u, (fun _ => none : Users) "alice" = some u ∧
        u.latest_location = none) ∧
    (check_proximity_geohash (fun _ => none) (fun _ => none) "alice" 0
      10 60).1 = [] :=
  ⟨Or.inl rfl,
   C5_unknown_agent_empty (fun _ => none) (fun _ => none) "alice" 0 10 60
     (Or.inl rfl)⟩

/-- Decomposition of hit-list membership: everything the loop body checked
before producing a hit. Shared by the proofs of C4, C6 and C7. -/
theorem mem_hits (users_dict : Users) (idx : GeoIndex) (user_id : String)
    (now threshold time_window : ℝ) (vid : String) (dist : ℝ)
    (h : (vid, dist) ∈ (check_proximity_geohash users_dict idx user_id now
      threshold time_window).1) :
    vid ≠ user_id ∧
    ∃ u lat1 lon1 v lat2 lon2,
      users_dict user_id = some u ∧ u.latest_location = some (lat1, lon1) ∧
      users_dict vid = some v ∧ v.latest_location = some (lat2, lon2) ∧
      now - v.last_ts ≤ time_window ∧
      near_with_stages lat1 lon1 lat2 lon2 threshold RELAX_RATIO ∧
      dist = haversine lat1 lon1 lat2 lon2 := by
  unfold check_proximity_geohash at h
  cases hu : users_dict user_id with
  | none => rw [hu] at h; simp at h
  | some u =>
    rw [hu] at h
    cases hl : u.latest_location with
    | none => simp only [hl] at h; simp at h
    | some q =>
      cases q with
      | mk lat1 lon1 =>
        simp only [hl] at h
        simp only [List.mem_filterMap] at h
        obtain ⟨w, _, hw⟩ := h
        unfold hitOf at hw
        by_cases hself : w = user_id
        · rw [if_pos hself] at hw; exact absurd hw (by simp)
        rw [if_neg hself] at hw
        cases hv : users_dict w with
        | none => rw [hv] at hw; exact absurd hw (by simp)
        | some v =>
          rw [hv] at hw
          cases hlv : v.latest_location with
          | none => simp only [hlv] at hw; exact absurd hw (by simp)
          | some q2 =>
            cases q2 with
            | mk lat2 lon2 =>
              simp only [hlv] at hw
              by_cases hstale : now - v.last_ts > time_window
              · rw [if_pos hstale] at hw; exact absurd hw (by simp)
              rw [if_neg hstale] at hw
              by_cases hnear :
                near_with_stages lat1 lon1 lat2 lon2 threshold RELAX_RATIO
              · rw [if_pos hnear] at hw
                obtain ⟨hw1, hw2⟩ := Prod.mk.injEq .. ▸ Option.some.injEq .. ▸ hw
                subst hw1
                exact ⟨hself, u, lat1, lon1, v, lat2, lon2, rfl, hl, hv, hlv,
                  not_lt.mp hstale, hnear, hw2.symm⟩
              · rw [if_neg hnear] at hw; exact absurd hw (by simp)

/-- C6: self-exclusion — the querying agent never appears in its own hit
list, whatever the state of the store and index. -/
theorem C6_self_exclusion (users_dict : Users) (idx : GeoIndex)
    (user_id : String) (now threshold time_window dist : ℝ) :
    (user_id, dist) ∉ (check_proximity_geohash users_dict idx user_id now
      threshold time_window).1 := by
  intro h
  exact (mem_hits users_dict idx user_id now threshold time_window user_id
    dist h).1 rfl

/-- Witness for C6 on the concrete two-agent state. -/
theorem C6_witness :
    ("alice", (0 : ℝ)) ∉ (check_proximity_geohash usersAB idxAB "alice" 0
      10 60).1 :=
  C6_self_exclusion usersAB idxAB "alice" 0 10 60 0

/-- C7: recency filter — a known candidate whose last update is older than
`time_window` before `now` is excluded from the hits regardless of its
distance. -/
theorem C7_recency_filter (users_dict : Users) (idx : GeoIndex)
    (user_id : String) (now threshold time_window : ℝ) (vid : String)
    (v : User) (hv : users_dict vid = some v)
    (hstale : now - v.last_ts > time_window) (dist : ℝ) :
    (vid, dist) ∉ (check_proximity_geohash users_dict idx user_id now
      threshold time_window).1 := by
  intro h
  obtain ⟨-, u, lat1, lon1, v', lat2, lon2, -, -, hv', -, hfresh, -, -⟩ :=
    mem_hits users_dict idx user_id now threshold time_window vid dist h
  rw [hv] at hv'
  cases hv'
  exact absurd hstale (not_lt.mpr hfresh)

/-- Witness for C7: with the query at time 100 both stored timestamps (0)
are stale for a 60-second window, so "bob" cannot be a hit. -/
theorem C7_witness :
    usersAB "bob" = some bobUser ∧ (100 : ℝ) - bobUser.last_ts > 60 ∧
    ("bob", (0 : ℝ)) ∉ (check_proximity_geohash usersAB idxAB "alice" 100
      10 60).1 :=
  ⟨rfl, by norm_num [bobUser],
   C7_recency_filter usersAB idxAB "alice" 100 10 60 "bob" bobUser rfl
     (by norm_num [bobUser]) 0⟩

/-- C4: every hit carries the exact haversine distance between the two
agents' latest samples, and that distance is at most the threshold. -/
theorem C4_hit_exact_distance (users_dict : Users) (idx : GeoIndex)
    (user_id : String) (now threshold time_window : ℝ) (vid : String)
    (dist : ℝ)
    (h : (vid, dist) ∈ (check_proximity_geohash users_dict idx user_id now
      threshold time_window).1) :
    ∃ u lat1 lon1 v lat2 lon2,
      users_dict user_id = some u ∧ u.latest_location = some (lat1, lon1) ∧
      users_dict vid = some v ∧ v.latest_location = some (lat2, lon2) ∧
      dist = haversine lat1 lon1 lat2 lon2 ∧ dist ≤ threshold := by
  obtain ⟨-, u, lat1, lon1, v, lat2, lon2, hu, hl, hv, hlv, -, hnear, hd⟩ :=
    mem_hits users_dict idx user_id now threshold time_window vid dist h
  exact ⟨u, lat1, lon1, v, lat2, lon2, hu, hl, hv, hlv, hd,
    hd ▸ hnear.2.2⟩

/-! ### Concrete evaluation of a hit (witness support for C4) -/

theorem radians_zero : radians 0 = 0 := by simp [radians]

theorem atan2_zero_one : atan2 0 1 = 0 := by
  unfold atan2
  rw [if_pos one_pos]
  simp

theorem haversine_self (lat lon : ℝ) : haversine lat lon lat lon = 0 := by
  unfold haversine
  simp [radians, atan2_zero_one]

theorem equirectangular_self (lat lon : ℝ) :
    equirectangular_m lat lon lat lon = 0 := by
  unfold equirectangular_m
  simp [radians]

theorem deg_bound_nonneg (t : ℝ) (ht : 0 ≤ t) :
    0 ≤ t * (180.0 / Real.pi / R_EARTH) := by
  have hpi : (0:ℝ) < Real.pi := Real.pi_pos
  have : (0:ℝ) < R_EARTH := by unfold R_EARTH; norm_num
  positivity

theorem bbox_pass_self (lat lon t : ℝ) (ht : 0 ≤ t) :
    bbox_pass lat lon lat lon t := by
  unfold bbox_pass
  have h1 : 0 ≤ t * (180.0 / Real.pi / R_EARTH) := deg_bound_nonneg t ht
  have h2 : (0:ℝ) < max 0.2 (Real.cos (radians lat)) :=
    lt_of_lt_of_le (by norm_num) (le_max_left _ _)
  constructor
  · simpa using h1
  · simpa using div_nonneg h1 h2.le

theorem near_origin : near_with_stages 0 0 0 0 10 RELAX_RATIO := by
  refine ⟨bbox_pass_self 0 0 10 (by norm_num), ?_, ?_⟩
  · rw [equirectangular_self]
    unfold RELAX_RATIO
    norm_num
  · rw [haversine_self]
    norm_num

theorem mem_collect_candidates (x : String) :
    ∀ (hs : List String) (idx : GeoIndex),
      x ∈ (collect_candidates idx hs).1 ↔ ∃ h ∈ hs, x ∈ idxSet idx h := by
  intro hs
  induction hs with
  | nil => intro idx; simp [collect_candidates]
  | cons h rest ih =>
    intro idx
    simp [collect_candidates, dict_get, ih, idxSet]

/-- On the two-agent origin state, querying for "alice" produces the hit
`("bob", haversine 0 0 0 0)`. -/
theorem hit_bob_mem :
    ("bob", haversine 0 0 0 0) ∈
      (check_proximity_geohash usersAB idxAB "alice" 0 10 60).1 := by
  unfold check_proximity_geohash
  rw [show usersAB "alice" = some aliceUser from rfl]
  simp only [show aliceUser.latest_location = some ((0:ℚ), (0:ℚ)) from rfl]
  rw [List.mem_filterMap]
  refine ⟨"bob", ?_, ?_⟩
  · rw [Finset.mem_sort, mem_collect_candidates]
    refine ⟨"7zzzzzzz", ?_, ?_⟩
    · rw [show ghOf aliceUser 0 0 = "7zzzzzzz" from rfl, Finset.mem_sort]
      exact Finset.mem_insert_self _ _
    · rw [show idxSet idxAB "7zzzzzzz" = {"alice", "bob"} from rfl]
      decide
  · unfold hitOf
    rw [if_neg (by decide : ¬("bob" = "alice")),
      show usersAB "bob" = some bobUser from rfl]
    simp only [show bobUser.latest_location = some ((0:ℚ), (0:ℚ)) from rfl,
      Rat.cast_zero]
    rw [if_neg (show ¬((0:ℝ) - bobUser.last_ts > 60) by
        simp only [show bobUser.last_ts = 0 from rfl]; norm_num),
      if_pos (show near_with_stages ((0:ℚ):ℝ) ((0:ℚ):ℝ) ((0:ℚ):ℝ) ((0:ℚ):ℝ)
        10 RELAX_RATIO by push_cast; exact near_origin)]

/-- Witness for C4 on the two-agent origin state: the hit for "bob" carries
the exact haversine distance, which is within the 10 m threshold. -/
theorem C4_witness :
    ∃ u lat1 lon1 v lat2 lon2,
      usersAB "alice" = some u ∧ u.latest_location = some (lat1, lon1) ∧
      usersAB "bob" = some v ∧ v.latest_location = some (lat2, lon2) ∧
      haversine 0 0 0 0 = haversine lat1 lon1 lat2 lon2 ∧
      haversine 0 0 0 0 ≤ 10 :=
  C4_hit_exact_distance usersAB idxAB "alice" 0 10 60 "bob"
    (haversine 0 0 0 0) hit_bob_mem

/-! ### Upsert protocol: bucket invariant (C2) and totality (C1) -/

theorem dequeAppend20_getLast (h : List (ℚ × ℚ)) (x : ℚ × ℚ) :
    (dequeAppend20 h x).getLast? = some x := by
  unfold dequeAppend20
  split <;> simp

/-- After an upsert the upserted agent is recorded: its `last_gh` is the
encoding of the new coordinates and its latest sample is the new pair. -/
theorem upsert_user_self (users_dict : Users) (idx : GeoIndex)
    (user_id : String) (lat lon : ℚ) (ts? : Option ℝ) (now : ℝ) :
    ∃ u, (upsert_user users_dict idx user_id lat lon ts? now).1 user_id =
        some u ∧
      u.last_gh = some (encode_geohash lat lon GEO_PREC) ∧
      u.latest_location = some (lat, lon) := by
  refine ⟨{ (match users_dict user_id with
             | some u => u
             | none => ({ user_id := user_id } : User)).add_location lat lon
               (ts?.getD now)
            with last_gh := some (encode_geohash lat lon GEO_PREC) },
    ?_, rfl, ?_⟩
  · simp only [upsert_user]
    simp
  · simp [User.add_location, User.latest_location, dequeAppend20_getLast]

theorem upsert_user_other (users_dict : Users) (idx : GeoIndex)
    (user_id : String) (lat lon : ℚ) (ts? : Option ℝ) (now : ℝ)
    (uid : String) (h : uid ≠ user_id) :
    (upsert_user users_dict idx user_id lat lon ts? now).1 uid =
      users_dict uid := by
  simp only [upsert_user]
  rw [if_neg h]

theorem upsert_user_snd_none (users_dict : Users) (idx : GeoIndex)
    (user_id : String) (lat lon : ℚ) (ts? : Option ℝ) (now : ℝ)
    (h : users_dict user_id = none) :
    (upsert_user users_dict idx user_id lat lon ts? now).2 =
      add_to idx (encode_geohash lat lon GEO_PREC) user_id := by
  unfold upsert_user
  rw [h]

theorem upsert_user_snd_some_none (users_dict : Users) (idx : GeoIndex)
    (user_id : String) (lat lon : ℚ) (ts? : Option ℝ) (now : ℝ) (u0 : User)
    (h : users_dict user_id = some u0) (hg : u0.last_gh = none) :
    (upsert_user users_dict idx user_id lat lon ts? now).2 =
      add_to idx (encode_geohash lat lon GEO_PREC) user_id := by
  unfold upsert_user
  rw [h]
  simp only [hg]

theorem upsert_user_snd_some_some (users_dict : Users) (idx : GeoIndex)
    (user_id : String) (lat lon : ℚ) (ts? : Option ℝ) (now : ℝ) (u0 : User)
    (g0 : String) (h : users_dict user_id = some u0)
    (hg : u0.last_gh = some g0) :
    (upsert_user users_dict idx user_id lat lon ts? now).2 =
      add_to (discard_from idx g0 user_id)
        (encode_geohash lat lon GEO_PREC) user_id := by
  unfold upsert_user
  rw [h]
  simp only [hg]

theorem idxSet_add_to (idx : GeoIndex) (k x g : String) :
    idxSet (add_to idx k x) g =
      if g = k then insert x (idxSet idx k) else idxSet idx g := by
  unfold add_to dd_getitem idxSet
  cases hk : idx k <;> by_cases h : g = k <;> simp [h, hk]

theorem idxSet_discard_from (idx : GeoIndex) (k x g : String) :
    idxSet (discard_from idx k x) g =
      if g = k then (idxSet idx k).erase x else idxSet idx g := by
  unfold discard_from dd_getitem idxSet
  cases hk : idx k <;> by_cases h : g = k <;> simp [h, hk]

theorem mem_add_to_of_ne (idx : GeoIndex) (k x g uid : String)
    (h : uid ≠ x) :
    uid ∈ idxSet (add_to idx k x) g ↔ uid ∈ idxSet idx g := by
  rw [idxSet_add_to]
  by_cases hg : g = k
  · rw [if_pos hg, hg]
    simp [Finset.mem_insert, h]
  · rw [if_neg hg]

theorem mem_discard_from_of_ne (idx : GeoIndex) (k x g uid : String)
    (h : uid ≠ x) :
    uid ∈ idxSet (discard_from idx k x) g ↔ uid ∈ idxSet idx g := by
  rw [idxSet_discard_from]
  by_cases hg : g = k
  · rw [if_pos hg, hg]
    simp [Finset.mem_erase, h]
  · rw [if_neg hg]

theorem upsert_user_mem_idx (users_dict : Users) (idx : GeoIndex)
    (user_id : String) (lat lon : ℚ) (ts? : Option ℝ) (now : ℝ) :
    user_id ∈ idxSet (upsert_user users_dict idx user_id lat lon ts? now).2
      (encode_geohash lat lon GEO_PREC) := by
  rcases (users_dict user_id).eq_none_or_eq_some with h0 | ⟨u0, h0⟩
  · rw [upsert_user_snd_none _ _ _ _ _ _ _ h0, idxSet_add_to, if_pos rfl]
    exact Finset.mem_insert_self _ _
  · rcases u0.last_gh.eq_none_or_eq_some with hg0 | ⟨g0, hg0⟩
    · rw [upsert_user_snd_some_none _ _ _ _ _ _ _ u0 h0 hg0, idxSet_add_to,
        if_pos rfl]
      exact Finset.mem_insert_self _ _
    · rw [upsert_user_snd_some_some _ _ _ _ _ _ _ u0 g0 h0 hg0, idxSet_add_to,
        if_pos rfl]
      exact Finset.mem_insert_self _ _

/-- The strengthened invariant is preserved by every `upsert_user` call. -/
theorem Inv_preserved (users_dict : Users) (idx : GeoIndex)
    (hInv : Inv users_dict idx) (user_id : String) (lat lon : ℚ)
    (ts? : Option ℝ) (now : ℝ) :
    Inv (upsert_user users_dict idx user_id lat lon ts? now).1
      (upsert_user users_dict idx user_id lat lon ts? now).2 := by
  obtain ⟨u2, hu2, hu2g, -⟩ :=
    upsert_user_self users_dict idx user_id lat lon ts? now
  intro uid g
  by_cases huid : uid = user_id
  · subst huid
    have hRHS :
        (∃ u, (upsert_user users_dict idx uid lat lon ts? now).1 uid =
            some u ∧ u.last_gh = some g) ↔
          g = encode_geohash lat lon GEO_PREC := by
      constructor
      · rintro ⟨u, hu, hugh⟩
        rw [hu2, Option.some_inj] at hu
        subst hu
        rw [hu2g, Option.some_inj] at hugh
        exact hugh.symm
      · rintro rfl
        exact ⟨u2, hu2, hu2g⟩
    rw [hRHS]
    rcases (users_dict uid).eq_none_or_eq_some with h0 | ⟨u0, h0⟩
    · rw [upsert_user_snd_none _ _ _ _ _ _ _ h0, idxSet_add_to]
      by_cases hg : g = encode_geohash lat lon GEO_PREC
      · rw [if_pos hg]
        simp [hg]
      · rw [if_neg hg]
        simp only [hg, iff_false]
        intro hmem
        obtain ⟨u, hu, -⟩ := (hInv uid g).mp hmem
        rw [h0] at hu
        exact Option.noConfusion hu
    · rcases u0.last_gh.eq_none_or_eq_some with hg0 | ⟨g0, hg0⟩
      · rw [upsert_user_snd_some_none _ _ _ _ _ _ _ u0 h0 hg0, idxSet_add_to]
        by_cases hg : g = encode_geohash lat lon GEO_PREC
        · rw [if_pos hg]
          simp [hg]
        · rw [if_neg hg]
          simp only [hg, iff_false]
          intro hmem
          obtain ⟨u, hu, hugh⟩ := (hInv uid g).mp hmem
          rw [h0, Option.some_inj] at hu
          subst hu
          rw [hg0] at hugh
          exact Option.noConfusion hugh
      · rw [upsert_user_snd_some_some _ _ _ _ _ _ _ u0 g0 h0 hg0,
          idxSet_add_to]
        by_cases hg : g = encode_geohash lat lon GEO_PREC
        · rw [if_pos hg]
          simp [hg]
        · rw [if_neg hg, idxSet_discard_from]
          simp only [hg, iff_false]
          by_cases hgg0 : g = g0
          · rw [if_pos hgg0]
            simp
          · rw [if_neg hgg0]
            intro hmem
            obtain ⟨u, hu, hugh⟩ := (hInv uid g).mp hmem
            rw [h0, Option.some_inj] at hu
            subst hu
            rw [hg0, Option.some_inj] at hugh
            exact hgg0 hugh.symm
  · rw [upsert_user_other _ _ _ _ _ _ _ _ huid, ← hInv uid g]
    rcases (users_dict user_id).eq_none_or_eq_some with h0 | ⟨u0, h0⟩
    · rw [upsert_user_snd_none _ _ _ _ _ _ _ h0,
        mem_add_to_of_ne _ _ _ _ _ huid]
    · rcases u0.last_gh.eq_none_or_eq_some with hg0 | ⟨g0, hg0⟩
      · rw [upsert_user_snd_some_none _ _ _ _ _ _ _ u0 h0 hg0,
          mem_add_to_of_ne _ _ _ _ _ huid]
      · rw [upsert_user_snd_some_some _ _ _ _ _ _ _ u0 g0 h0 hg0,
          mem_add_to_of_ne _ _ _ _ _ huid,
          mem_discard_from_of_ne _ _ _ _ _ huid]

theorem Inv_of_Reachable : ∀ s, Reachable s → Inv s.1 s.2 := by
  intro s h
  induction h with
  | init =>
    intro uid g
    simp [idxSet]
  | step s uid lat lon ts? now hr ih =>
    exact Inv_preserved s.1 s.2 ih uid lat lon ts? now

/-- C2: after any finite sequence of upserts from the empty initial state,
every known agent with a current bucket is a member of the index set of that
bucket and of no other bucket's set. -/
theorem C2_bucket_invariant (s : Users × GeoIndex) (hs : Reachable s)
    (uid : String) (u : User) (c : String) (hu : s.1 uid = some u)
    (hc : u.last_gh = some c) (g : String) (hg : g ≠ c) :
    uid ∈ idxSet s.2 c ∧ uid ∉ idxSet s.2 g := by
  have hInv := Inv_of_Reachable s hs
  refine ⟨(hInv uid c).mpr ⟨u, hu, hc⟩, ?_⟩
  intro hmem
  obtain ⟨u', hu', hgh'⟩ := (hInv uid g).mp hmem
  rw [hu, Option.some_inj] at hu'
  subst hu'
  rw [hc, Option.some_inj] at hgh'
  exact hg hgh'.symm

/-- Witness for C2: the state after upserting "alice" at the origin. Its
bucket is `encode_geohash 0 0`; the empty string names a different bucket
(every encoded bucket code has length `GEO_PREC = 8`). -/
theorem C2_witness :
    "alice" ∈ idxSet stateA.2 (encode_geohash 0 0 GEO_PREC) ∧
    "alice" ∉ idxSet stateA.2 "" :=
  C2_bucket_invariant stateA
    (Reachable.step (fun _ => none, fun _ => none) "alice" 0 0 none 0
      Reachable.init)
    "alice" aliceAfterUpsert (encode_geohash 0 0 GEO_PREC) rfl rfl ""
    (fun h => by
      have hlen := congrArg String.length h
      rw [show (encode_geohash 0 0 GEO_PREC).length =
          (bitsToChars (geohashBits 0 0 (5 * GEO_PREC) true
            (-90) 90 (-180) 180)).length from rfl,
        bitsToChars_length GEO_PREC _
          (geohashBits_length 0 0 (5 * GEO_PREC) true _ _ _ _)] at hlen
      exact absurd hlen (by decide))

/-! ### Upsert accepts malformed coordinates (C1) -/

/-- C1 counterexample: with latitude 200 — far outside [-90, 90] — the
upsert does not reject the input at the boundary: it stores the sample for
the agent and indexes the agent under the bucket encoded from the malformed
coordinates. No validation exists in `upsert_user`. -/
theorem C1_counterexample :
    (∃ u, (upsert_user (fun _ => none) (fun _ => none) "a" 200 0 none 0).1
        "a" = some u ∧ u.latest_location = some (200, 0)) ∧
    "a" ∈ idxSet (upsert_user (fun _ => none) (fun _ => none) "a" 200 0
        none 0).2 (encode_geohash 200 0 GEO_PREC) := by
  obtain ⟨u, hu, -, hloc⟩ :=
    upsert_user_self (fun _ => none) (fun _ => none) "a" 200 0 none 0
  exact ⟨⟨u, hu, hloc⟩, upsert_user_mem_idx _ _ _ _ _ _ _⟩

/-- C1 (amended): `upsert_user` never fails: for every agent id and every
coordinate pair — in range or not — it returns normally, records the sample
as the agent's latest location, and indexes the agent under the encoding of
the given coordinates. -/
theorem C1_upsert_always_succeeds (users_dict : Users) (idx : GeoIndex)
    (user_id : String) (lat lon : ℚ) (ts? : Option ℝ) (now : ℝ) :
    ∃ u, (upsert_user users_dict idx user_id lat lon ts? now).1 user_id =
        some u ∧
      u.last_gh = some (encode_geohash lat lon GEO_PREC) ∧
      u.latest_location = some (lat, lon) ∧
      user_id ∈ idxSet
        (upsert_user users_dict idx user_id lat lon ts? now).2
        (encode_geohash lat lon GEO_PREC) := by
  obtain ⟨u, hu, hg, hl⟩ :=
    upsert_user_self users_dict idx user_id lat lon ts? now
  exact ⟨u, hu, hg, hl, upsert_user_mem_idx _ _ _ _ _ _ _⟩

/-! ### The stage cascade and its monotonicity (C3) -/

theorem haversine_antimeridian : haversine 0 180 0 (-180) = 0 := by
  have h1 : Real.sin (radians ((-180 : ℝ) - 180) / 2) = 0 := by
    rw [show radians ((-180 : ℝ) - 180) / 2 = -Real.pi from by
      unfold radians; ring]
    rw [Real.sin_neg, Real.sin_pi, neg_zero]
  unfold haversine
  simp only [sub_self, radians_zero, zero_div, Real.sin_zero, h1]
  norm_num [atan2_zero_one]

theorem bbox_antimeridian : ¬ bbox_pass 0 180 0 (-180) 10 := by
  unfold bbox_pass
  intro h
  obtain ⟨-, h2⟩ := h
  rw [radians_zero, Real.cos_zero] at h2
  rw [show max (0.2:ℝ) 1 = 1 from by norm_num, div_one] at h2
  rw [show |(180:ℝ) - -180| = 360 from by norm_num] at h2
  have h3 : 180.0 / Real.pi / R_EARTH < 1 := by
    rw [div_div, div_lt_one (mul_pos Real.pi_pos (show (0:ℝ) < R_EARTH by unfold R_EARTH; norm_num))]
    unfold R_EARTH
    nlinarith [Real.pi_gt_three]
  nlinarith [h2, h3]

theorem equirect_antimeridian :
    ¬ equirectangular_m 0 180 0 (-180) ≤ 10 * RELAX_RATIO := by
  have hval : equirectangular_m 0 180 0 (-180) =
      R_EARTH * (2 * Real.pi) := by
    unfold equirectangular_m
    simp only [sub_self, radians_zero]
    rw [show radians ((-180 : ℝ) - 180) = -(2 * Real.pi) from by
      unfold radians; ring]
    rw [show ((0:ℝ) + 0) / 2 = 0 from by norm_num, radians_zero,
      Real.cos_zero]
    rw [show -(2 * Real.pi) * 1 * (-(2 * Real.pi) * 1) + (0:ℝ) * 0 =
      (2 * Real.pi) ^ 2 from by ring]
    rw [Real.sqrt_sq (by positivity)]
  rw [hval]
  unfold RELAX_RATIO R_EARTH
  intro h
  nlinarith [Real.pi_gt_three]

/-- C3 counterexample: the pair (0°, 180°) – (0°, −180°) names the same
point on the sphere twice (antimeridian); its exact haversine distance is 0,
within any threshold, yet both the bounding-box stage and the planar
approximation stage reject it. Monotonicity of the cascade is not
structural. -/
theorem C3_counterexample :
    haversine 0 180 0 (-180) ≤ 10 ∧
    ¬ bbox_pass 0 180 0 (-180) 10 ∧
    ¬ equirectangular_m 0 180 0 (-180) ≤ 10 * RELAX_RATIO :=
  ⟨by rw [haversine_antimeridian]; norm_num, bbox_antimeridian,
    equirect_antimeridian⟩

theorem atan2_sqrt_eq_arcsin (a : ℝ) (h0 : 0 ≤ a) (h1 : a ≤ 1) :
    atan2 (Real.sqrt a) (Real.sqrt (1 - a)) = Real.arcsin (Real.sqrt a) := by
  rcases eq_or_lt_of_le h1 with heq | hlt
  · subst heq
    rw [sub_self, Real.sqrt_zero, Real.sqrt_one]
    unfold atan2
    rw [if_neg (lt_irrefl (0:ℝ)), if_neg (fun hc => lt_irrefl (0:ℝ) hc.1),
      if_neg (lt_irrefl (0:ℝ)), if_pos one_pos, Real.arcsin_one]
  · have hx : 0 < Real.sqrt (1 - a) := Real.sqrt_pos.mpr (by linarith)
    unfold atan2
    rw [if_pos hx]
    rw [Real.arcsin_eq_arctan (Set.mem_Ioo.mpr ⟨?_, ?_⟩)]
    · congr 2
      rw [Real.sq_sqrt h0]
    · have := Real.sqrt_nonneg a
      linarith
    · exact (Real.sqrt_lt' one_pos).mpr (by linarith)

/-- C3 (amended, positive part): if the exact haversine distance of a pair
of in-range latitudes is within the threshold, the latitude test of the
bounding-box stage never rejects the pair. (The longitude test and the
planar stage can reject such a pair — see the counterexample — so only the
latitude component of the cascade is structurally monotone.) -/
theorem C3_latitude_monotone (lat1 lon1 lat2 lon2 t : ℝ)
    (h1 : |lat1| ≤ 90) (h2 : |lat2| ≤ 90) (ht : 0 ≤ t)
    (hhav : haversine lat1 lon1 lat2 lon2 ≤ t) :
    |lat1 - lat2| ≤ t * (180.0 / Real.pi / R_EARTH) := by
  have hpi := Real.pi_pos
  have hR : (0:ℝ) < R_EARTH := by unfold R_EARTH; norm_num
  set φ1 := radians lat1 with hφ1def
  set φ2 := radians lat2 with hφ2def
  set dphi2 := radians (lat2 - lat1) / 2 with hdphi2
  set s2lam := Real.sin (radians (lon2 - lon1) / 2) ^ 2 with hs2lam
  set A := Real.sin dphi2 ^ 2 + Real.cos φ1 * Real.cos φ2 * s2lam with hA
  have hkey : haversine lat1 lon1 lat2 lon2 =
      2 * R_EARTH * atan2 (Real.sqrt A) (Real.sqrt (1 - A)) := rfl
  -- latitude angles are within [-π/2, π/2]
  have habsφ1 : |φ1| ≤ Real.pi / 2 := by
    rw [hφ1def]
    unfold radians
    rw [abs_div, abs_mul, abs_of_pos hpi, abs_of_pos (show (0:ℝ) < 180 by
      norm_num)]
    rw [div_le_iff (by norm_num)]
    nlinarith [h1, hpi]
  have habsφ2 : |φ2| ≤ Real.pi / 2 := by
    rw [hφ2def]
    unfold radians
    rw [abs_div, abs_mul, abs_of_pos hpi, abs_of_pos (show (0:ℝ) < 180 by
      norm_num)]
    rw [div_le_iff (by norm_num)]
    nlinarith [h2, hpi]
  have hc1 : 0 ≤ Real.cos φ1 :=
    Real.cos_nonneg_of_mem_Icc (Set.mem_Icc.mpr
      ⟨neg_le_of_abs_le habsφ1, le_of_abs_le habsφ1⟩)
  have hc2 : 0 ≤ Real.cos φ2 :=
    Real.cos_nonneg_of_mem_Icc (Set.mem_Icc.mpr
      ⟨neg_le_of_abs_le habsφ2, le_of_abs_le habsφ2⟩)
  have h0A : 0 ≤ A := by
    rw [hA]
    have := sq_nonneg (Real.sin dphi2)
    have := sq_nonneg (Real.sin (radians (lon2 - lon1) / 2))
    nlinarith [mul_nonneg hc1 hc2]
  have hdphi_eq : 2 * dphi2 = φ2 - φ1 := by
    rw [hdphi2, hφ1def, hφ2def]
    unfold radians
    ring
  have h1A : A ≤ 1 := by
    have hs : Real.sin dphi2 ^ 2 = 1 / 2 - Real.cos (2 * dphi2) / 2 :=
      Real.sin_sq_eq_half_sub dphi2
    rw [hdphi_eq] at hs
    have hslam : s2lam ≤ 1 := by
      rw [hs2lam]
      exact Real.sin_sq_le_one _
    have hslam0 : 0 ≤ s2lam := by
      rw [hs2lam]
      exact sq_nonneg _
    have hcos_sub := Real.cos_sub φ2 φ1
    have hcos_add := Real.cos_add φ2 φ1
    have hcos_le := Real.cos_le_one (φ2 + φ1)
    have hcc := mul_nonneg hc1 hc2
    rw [hA, hs]
    nlinarith [mul_le_of_le_one_right hcc hslam, mul_nonneg hcc hslam0]
  -- the haversine distance dominates the meridian component
  have hslam_nn : 0 ≤ s2lam := by
    rw [hs2lam]
    exact sq_nonneg _
  have hmono : Real.arcsin |Real.sin dphi2| ≤ Real.arcsin (Real.sqrt A) := by
    apply Real.monotone_arcsin
    rw [← Real.sqrt_sq_eq_abs]
    apply Real.sqrt_le_sqrt
    rw [hA]
    nlinarith [mul_nonneg (mul_nonneg hc1 hc2) hslam_nn]
  have habsd : |dphi2| ≤ Real.pi / 2 := by
    have : |2 * dphi2| ≤ Real.pi := by
      rw [hdphi_eq]
      calc |φ2 - φ1| ≤ |φ2| + |φ1| := abs_sub _ _
        _ ≤ Real.pi / 2 + Real.pi / 2 := add_le_add habsφ2 habsφ1
        _ = Real.pi := by ring
    rw [abs_mul, abs_of_pos (show (0:ℝ) < 2 by norm_num)] at this
    linarith
  have habs_sin : |Real.sin dphi2| = Real.sin |dphi2| := by
    rcases le_or_lt 0 dphi2 with hd | hd
    · rw [abs_of_nonneg hd, abs_of_nonneg (Real.sin_nonneg_of_nonneg_of_le_pi
        hd (by linarith [habsd, abs_of_nonneg hd, hpi]))]
    · rw [abs_of_neg hd, Real.sin_neg, abs_of_nonpos
        (Real.sin_nonpos_of_nonnpos_of_neg_pi_le hd.le (by
          have := neg_le_of_abs_le habsd
          linarith))]
  have harcsin : Real.arcsin |Real.sin dphi2| = |dphi2| := by
    rw [habs_sin, Real.arcsin_sin (by linarith [abs_nonneg dphi2]) habsd]
  -- chain the bounds
  have hstep : R_EARTH * (|lat2 - lat1| * Real.pi / 180) ≤ t := by
    have h2R : 2 * R_EARTH * |dphi2| ≤
        2 * R_EARTH * atan2 (Real.sqrt A) (Real.sqrt (1 - A)) := by
      rw [atan2_sqrt_eq_arcsin A h0A h1A, ← harcsin]
      exact mul_le_mul_of_nonneg_left hmono (by positivity)
    have habs_dphi : |dphi2| = |lat2 - lat1| * Real.pi / 180 / 2 := by
      rw [hdphi2]
      unfold radians
      rw [abs_div, abs_div, abs_mul, abs_of_pos hpi]
      norm_num
    rw [habs_dphi] at h2R
    rw [← hkey] at h2R
    calc R_EARTH * (|lat2 - lat1| * Real.pi / 180) =
        2 * R_EARTH * (|lat2 - lat1| * Real.pi / 180 / 2) := by ring
      _ ≤ haversine lat1 lon1 lat2 lon2 := h2R
      _ ≤ t := hhav
  rw [abs_sub_comm, div_div, ← mul_div_assoc, le_div_iff (mul_pos hpi hR)]
  nlinarith [hstep]

/-- Witness for C3's amended theorem at the origin pair. -/
theorem C3_witness :
    |(0:ℝ)| ≤ 90 ∧ haversine 0 0 0 0 ≤ 10 ∧
    |(0:ℝ) - 0| ≤ 10 * (180.0 / Real.pi / R_EARTH) :=
  ⟨by norm_num, by rw [haversine_self]; norm_num,
   C3_latitude_monotone 0 0 0 0 10 (by norm_num) (by norm_num) (by norm_num)
     (by rw [haversine_self]; norm_num)⟩

end App
